import Mathlib

/-!
A verification development for the Reflex virtual-tree reconciliation engine
(reflex.js).  The JavaScript source is shallowly embedded: virtual nodes are an
inductive type, live document nodes are an inductive type, and every engine
function is translated line by line into a pure Lean function that returns the
mutated node, the list of document operations it performed, and the JavaScript
exception it raised, if any.

Modelling conventions, fixed once here:
* A JavaScript value that may be `undefined` is an `Option`.
* Truthiness of a maybe-node follows JavaScript: `undefined` and the empty
  string are falsy, every other string and every object is truthy.
* `updateProp` in the source reads the identifier `newVal`, but its parameter
  is named `newValue` and no `newVal` is bound anywhere in the program, so the
  very first expression of its body raises a ReferenceError; the embedding
  returns that error before performing any document operation.
* For a call `obj.m(a, b)` JavaScript resolves `obj.m` first (raising a
  TypeError when `obj` is `undefined`) and then evaluates the arguments from
  left to right; the embedding performs effects in that order.
-/

namespace Reflex

/-- A JavaScript property value: a string, a function (identified by a
numeric id, since only handler identity matters), or the undefined value. -/
inductive Value where
  | str (s : String)
  | fn (id : Nat)
  | undef
deriving DecidableEq, Repr

/-- A virtual node: either a raw string (the Text variant) or an element with
a tag name, a property map and an ordered child list, as built by `h`. -/
inductive VNode where
  | text (s : String)
  | elem (tag : String) (props : List (String × Value)) (children : List VNode)
deriving Repr

/-- The `h` constructor from reflex.js: `props || \x7b\x7d` defaults an absent or
null property object to the empty one; children are stored as given. -/
def h (tag : String) (props : Option (List (String × Value))) (children : List VNode) : VNode :=
  .elem tag (props.getD []) children

/-- JavaScript truthiness of a maybe-VNode: `undefined` is falsy, a string is
falsy exactly when it is empty, and an object is always truthy. -/
def truthy : Option VNode → Bool
  | none => false
  | some (.text s) => !(s == "")
  | some (.elem _ _ _) => true

/-- Truthiness of the expression `node.type`: on a string the field is
`undefined` (falsy); on an element it is the tag, falsy only when empty. -/
def typeTruthy : VNode → Bool
  | .text _ => false
  | .elem t _ _ => !(t == "")

/-- `isEventProp` from reflex.js: the regular expression test `^on`, i.e. the
first two characters are `o` then `n`. -/
def isEventProp (name : String) : Bool :=
  match name.data with
  | 'o' :: 'n' :: _ => true
  | _ => false

/-- `isCustomProp` from reflex.js: an event property or `forceUpdate`. -/
def isCustomProp (name : String) : Bool := isEventProp name || name == "forceUpdate"

/-- ASCII lower-casing of one character, as `toLowerCase` acts on the
event-name characters the engine deals with. -/
def lowerChar (c : Char) : Char :=
  if 65 ≤ c.toNat ∧ c.toNat ≤ 90 then Char.ofNat (c.toNat + 32) else c

/-- `extractEventName` from reflex.js: `name.slice(2).toLowerCase()`,
performed on the character list of the name. -/
def extractEventName (name : String) : String :=
  ⟨(name.data.drop 2).map lowerChar⟩

/-- A live document node: a text node, or an element with a tag, an attribute
map, a list of subscribed event listeners, and an ordered child list. -/
inductive LiveNode where
  | ltext (s : String)
  | lelem (tag : String) (attrs : List (String × Value))
      (listeners : List (String × Value)) (children : List LiveNode)
deriving Repr

/-- A primitive mutation issued against the live document tree. -/
inductive Op where
  | setAttr (name : String) (value : Value)
  | removeAttr (name : String)
  | addListener (event : String) (handler : Value)
  | appendChild
  | removeChild (index : Nat)
  | replaceChild (index : Nat)
deriving DecidableEq, Repr

/-- A JavaScript exception, as far as the engine can raise one. -/
inductive JSError where
  | referenceError
  | typeError
  | domError
deriving DecidableEq, Repr

/-- Result of running an engine function: the node the function was mutating
(as left behind, even when an exception escaped), the document operations it
performed, and the exception that escaped, if any. -/
structure RRes where
  node : Option LiveNode
  ops : List Op
  err : Option JSError
deriving Repr

/-- Keys of a JavaScript object represented as an association list; real
objects cannot hold a key twice, so duplicates keep their first position. -/
def jsKeys (ps : List (String × Value)) : List String :=
  (ps.map Prod.fst).eraseDups

/-- `Object.assign(\x7b\x7d, a, b)`: the result holds a's keys in a's order with
b's values overriding in place, followed by b's keys not present in a. -/
def objAssign (a b : List (String × Value)) : List (String × Value) :=
  (a.map fun p => (p.1, ((b.lookup p.1).getD p.2))) ++
    b.filter fun p => (a.lookup p.1).isNone

/-- `el.setAttribute(name, v)` on an attribute map: overwrite in place when
the attribute exists, otherwise append it. -/
def setAttrList (attrs : List (String × Value)) (name : String) (v : Value) :
    List (String × Value) :=
  if attrs.any (fun p => p.1 == name) then
    attrs.map fun p => if p.1 == name then (name, v) else p
  else attrs ++ [(name, v)]

/-- `el.removeAttribute(name)` on an attribute map. -/
def removeAttrList (attrs : List (String × Value)) (name : String) :
    List (String × Value) :=
  attrs.filter fun p => !(p.1 == name)

/-- `setProp` from reflex.js: skip framework properties; map `className` to
the `class` attribute; otherwise set the identically named attribute.  Calling
`setAttribute` on `undefined` or on a text node raises a TypeError. -/
def setProp (target : Option LiveNode) (name : String) (value : Value) : RRes :=
  if isCustomProp name then ⟨target, [], none⟩
  else
    let attr := if name == "className" then "class" else name
    match target with
    | some (.lelem t a l cs) =>
        ⟨some (.lelem t (setAttrList a attr value) l cs), [.setAttr attr value], none⟩
    | some (.ltext s) => ⟨some (.ltext s), [], some .typeError⟩
    | none => ⟨none, [], some .typeError⟩

/-- `removeProp` from reflex.js: skip framework properties; map `className`
to `class`; otherwise remove the identically named attribute.  The `value`
argument is accepted and ignored, as in the source. -/
def removeProp (target : Option LiveNode) (name : String) (value : Option Value) : RRes :=
  if isCustomProp name then ⟨target, [], none⟩
  else
    let attr := if name == "className" then "class" else name
    match target with
    | some (.lelem t a l cs) =>
        ⟨some (.lelem t (removeAttrList a attr) l cs), [.removeAttr attr], none⟩
    | some (.ltext s) => ⟨some (.ltext s), [], some .typeError⟩
    | none => ⟨none, [], some .typeError⟩

/-- The `forEach` loop inside `setProps`: apply `setProp` to each key in
turn, stopping at the first exception. -/
def setPropsGo (target : Option LiveNode) (props : List (String × Value)) :
    List String → RRes
  | [] => ⟨target, [], none⟩
  | k :: rest =>
    let r := setProp target k ((props.lookup k).getD .undef)
    match r.err with
    | some e => ⟨r.node, r.ops, some e⟩
    | none =>
      let r2 := setPropsGo r.node props rest
      ⟨r2.node, r.ops ++ r2.ops, r2.err⟩

/-- `setProps` from reflex.js: `Object.keys(props).forEach(name =>
setProp(target, name, props[name]))`. -/
def setProps (target : Option LiveNode) (props : List (String × Value)) : RRes :=
  setPropsGo target props (jsKeys props)

/-- The `forEach` loop inside `addEventListeners`: subscribe each event
property in key order.  This helper is only ever applied to a freshly created
element node; the text-node and undefined cases are modelled as a TypeError
for totality. -/
def addEventListenersGo (target : Option LiveNode) (props : List (String × Value)) :
    List String → RRes
  | [] => ⟨target, [], none⟩
  | k :: rest =>
    if isEventProp k then
      match target with
      | some (.lelem t a ls cs) =>
        let ev := extractEventName k
        let v := (props.lookup k).getD .undef
        let r2 := addEventListenersGo (some (.lelem t a (ls ++ [(ev, v)]) cs)) props rest
        ⟨r2.node, .addListener ev v :: r2.ops, r2.err⟩
      | some (.ltext s) => ⟨some (.ltext s), [], some .typeError⟩
      | none => ⟨none, [], some .typeError⟩
    else addEventListenersGo target props rest

/-- `addEventListeners` from reflex.js: for every key that is an event
property, subscribe `props[name]` under the extracted event name. -/
def addEventListeners (target : Option LiveNode) (props : List (String × Value)) : RRes :=
  addEventListenersGo target props (jsKeys props)

/-- The `forEach(el.appendChild.bind(el))` step of `createElement`: append the
already materialized children in order.  An empty list performs nothing; a
non-element target raises on the first append. -/
def appendAll (target : Option LiveNode) (ns : List LiveNode) : RRes :=
  match target with
  | some (.lelem t a l cs) =>
      ⟨some (.lelem t a l (cs ++ ns)), ns.map (fun _ => Op.appendChild), none⟩
  | some (.ltext s) =>
      if ns.isEmpty then ⟨some (.ltext s), [], none⟩
      else ⟨some (.ltext s), [], some .domError⟩
  | none =>
      if ns.isEmpty then ⟨none, [], none⟩ else ⟨none, [], some .typeError⟩

/-- Result of materializing a list of children: the created nodes, the
operations performed, and the first exception, if any. -/
structure CLRes where
  nodes : List LiveNode
  ops : List Op
  err : Option JSError
deriving Repr

mutual

/-- `createElement` from reflex.js: a string becomes a text node; otherwise
create an element for the tag, apply `setProps`, then `addEventListeners`,
then materialize every child (`node.children.map(createElement)`) and append
the results in order. -/
def createElement : VNode → RRes
  | .text s => ⟨some (.ltext s), [], none⟩
  | .elem t props cs =>
    let r1 := setProps (some (.lelem t [] [] [])) props
    match r1.err with
    | some e => ⟨r1.node, r1.ops, some e⟩
    | none =>
      let r2 := addEventListeners r1.node props
      match r2.err with
      | some e => ⟨r2.node, r1.ops ++ r2.ops, some e⟩
      | none =>
        let rc := createList cs
        match rc.err with
        | some e => ⟨r2.node, r1.ops ++ r2.ops ++ rc.ops, some e⟩
        | none =>
          let ra := appendAll r2.node rc.nodes
          ⟨ra.node, r1.ops ++ r2.ops ++ rc.ops ++ ra.ops, ra.err⟩

/-- `node.children.map(createElement)`: materialize each child in order,
propagating the first exception. -/
def createList : List VNode → CLRes
  | [] => ⟨[], [], none⟩
  | c :: cs =>
    let r := createElement c
    match r.err with
    | some e => ⟨[], r.ops, some e⟩
    | none =>
      match r.node with
      | some n =>
        let rs := createList cs
        match rs.err with
        | some e => ⟨[], r.ops ++ rs.ops, some e⟩
        | none => ⟨n :: rs.nodes, r.ops ++ rs.ops, none⟩
      | none => ⟨[], r.ops, some .typeError⟩

end

/-- `createElement` applied to a maybe-node: on `undefined` the body reads
`node.type` (after the string test fails) and raises a TypeError. -/
def createElementO : Option VNode → RRes
  | none => ⟨none, [], some .typeError⟩
  | some v => createElement v

/-- `changed` from reflex.js, the disjunction
`typeof n1 !== typeof n2 || (typeof n1 === (string) && n1 !== n2) ||
n1.type !== n2.type` written out by run-time shape: on two strings the first
disjunct is false and the second compares contents (the third compares two
undefined fields, which is false); on mixed shapes the typeof test fires; on
two elements only the `type` fields are compared, never props or children. -/
def changed : VNode → VNode → Bool
  | .text a, .text b => !(a == b)
  | .text _, .elem _ _ _ => true
  | .elem _ _ _, .text _ => true
  | .elem t1 _ _, .elem t2 _ _ => !(t1 == t2)

/-- `updateProp` from reflex.js.  Its first statement is
`if (!newVal) ...`, but the parameter is named `newValue` and no binding for
`newVal` exists anywhere in the program (the enclosing closure defines only
the engine functions), so evaluating the condition raises a ReferenceError
before either `removeProp` or `setProp` can run, whatever the arguments. -/
def updateProp (target : Option LiveNode) (name : String)
    (newValue oldValue : Option Value) : RRes :=
  ⟨target, [], some .referenceError⟩

/-- The `forEach` loop inside `updateProps`, over the merged key list. -/
def updatePropsGo (target : Option LiveNode) (newProps oldProps : List (String × Value)) :
    List String → RRes
  | [] => ⟨target, [], none⟩
  | k :: rest =>
    let r := updateProp target k (newProps.lookup k) (oldProps.lookup k)
    match r.err with
    | some e => ⟨r.node, r.ops, some e⟩
    | none =>
      let r2 := updatePropsGo r.node newProps oldProps rest
      ⟨r2.node, r.ops ++ r2.ops, r2.err⟩

/-- `updateProps` from reflex.js: merge the two property objects with
`Object.assign`, then call `updateProp` for each key of the merge with the
key's value in `newProps` and in `oldProps`. -/
def updateProps (target : Option LiveNode) (newProps oldProps : List (String × Value)) : RRes :=
  updatePropsGo target newProps oldProps (jsKeys (objAssign newProps oldProps))

/-- `parent.childNodes[index]`: the live child at the index, when there is
one.  A text node has an empty child list. -/
def childAt : Option LiveNode → Nat → Option LiveNode
  | some (.lelem _ _ _ cs), i => cs[i]?
  | _, _ => none

/-- Write an in-place mutated child back into its parent's child list.  When
the child was absent (nothing was mutated) or the parent is not an element,
the parent is returned unchanged; `List.set` ignores an out-of-range index. -/
def setChild (parent : Option LiveNode) (index : Nat) (child : Option LiveNode) :
    Option LiveNode :=
  match parent, child with
  | some (.lelem t a l cs), some c => some (.lelem t a l (cs.set index c))
  | p, _ => p

/-- Branch 1 of `update`: `parent.appendChild(createElement(newNode))`.
Resolving `appendChild` on `undefined` raises a TypeError before the argument
is evaluated; on a text-node parent the argument is materialized first and the
append itself then raises the document's hierarchy error. -/
def updateAppend (parent : Option LiveNode) (newNode : Option VNode) : RRes :=
  match parent with
  | none => ⟨none, [], some .typeError⟩
  | some (.ltext s) =>
    let rc := createElementO newNode
    match rc.err with
    | some e => ⟨some (.ltext s), rc.ops, some e⟩
    | none => ⟨some (.ltext s), rc.ops, some .domError⟩
  | some (.lelem t a l cs) =>
    let rc := createElementO newNode
    match rc.err with
    | some e => ⟨some (.lelem t a l cs), rc.ops, some e⟩
    | none =>
      match rc.node with
      | some child => ⟨some (.lelem t a l (cs ++ [child])), rc.ops ++ [.appendChild], none⟩
      | none => ⟨some (.lelem t a l cs), rc.ops, some .typeError⟩

/-- Branch 2 of `update`: `parent.removeChild(parent.childNodes[index])`.
When no child exists at the index the argument is `undefined` and
`removeChild` raises a TypeError; a text-node parent has no children. -/
def updateRemove (parent : Option LiveNode) (index : Nat) : RRes :=
  match parent with
  | none => ⟨none, [], some .typeError⟩
  | some (.ltext s) => ⟨some (.ltext s), [], some .typeError⟩
  | some (.lelem t a l cs) =>
    match cs[index]? with
    | none => ⟨some (.lelem t a l cs), [], some .typeError⟩
    | some _ => ⟨some (.lelem t a l (cs.eraseIdx index)), [.removeChild index], none⟩

/-- Branch 3 of `update`:
`parent.replaceChild(createElement(newNode), parent.childNodes[index])`.
The replacement is materialized (performing its operations) before the
missing-child TypeError can fire, matching argument evaluation order. -/
def updateReplace (parent : Option LiveNode) (nn : VNode) (index : Nat) : RRes :=
  match parent with
  | none => ⟨none, [], some .typeError⟩
  | some (.ltext s) =>
    let rc := createElement nn
    match rc.err with
    | some e => ⟨some (.ltext s), rc.ops, some e⟩
    | none => ⟨some (.ltext s), rc.ops, some .typeError⟩
  | some (.lelem t a l cs) =>
    let rc := createElement nn
    match rc.err with
    | some e => ⟨some (.lelem t a l cs), rc.ops, some e⟩
    | none =>
      match rc.node, cs[index]? with
      | some child, some _ =>
        ⟨some (.lelem t a l (cs.set index child)), rc.ops ++ [.replaceChild index], none⟩
      | _, _ => ⟨some (.lelem t a l cs), rc.ops, some .typeError⟩

/-- The unreachable half of branch 4 (`changed` already separates the
shapes): a truthy-typed new element against an old string.  The property
reconciliation runs with `oldNode.props` read as `undefined` (which
`Object.assign` ignores), and then `oldNode.children.length` raises a
TypeError. -/
def updateElemVsText (p : LiveNode) (np : List (String × Value)) (index : Nat) : RRes :=
  let r1 := updateProps (childAt (some p) index) np []
  match r1.err with
  | some e => ⟨setChild (some p) index r1.node, r1.ops, some e⟩
  | none => ⟨setChild (some p) index r1.node, r1.ops, some .typeError⟩

mutual

/-- `update` from reflex.js, the tree reconciler.  The four branches in
source order: append when the old node is falsy; remove the live child at
`index` when the new node is falsy; replace that child with a fresh
materialization when `changed` holds; otherwise, when `newNode.type` is
truthy, reconcile the properties of the live child at `index` and recurse
over the children by index.  Member access on an `undefined` parent raises a
TypeError at the points JavaScript would. -/
def update (parent : Option LiveNode) (newNode oldNode : Option VNode) (index : Nat) : RRes :=
  if truthy oldNode = false then updateAppend parent newNode
  else if truthy newNode = false then updateRemove parent index
  else
    match newNode, oldNode with
    | some nn, some on_ =>
      if changed nn on_ then updateReplace parent nn index
      else
        match nn with
        | .text _ => ⟨parent, [], none⟩
        | .elem t np ncs =>
          if t == "" then ⟨parent, [], none⟩
          else
            match parent with
            | none => ⟨none, [], some .typeError⟩
            | some p =>
              match on_ with
              | .elem _ op ocs =>
                let r1 := updateProps (childAt (some p) index) np op
                match r1.err with
                | some e => ⟨setChild (some p) index r1.node, r1.ops, some e⟩
                | none =>
                  let rl := updateLoop r1.node ncs ocs 0
                  ⟨setChild (some p) index rl.node, r1.ops ++ rl.ops, rl.err⟩
              | .text _ => updateElemVsText p np index
    | _, _ => ⟨parent, [], some .typeError⟩
termination_by
  (match newNode with | none => 0 | some v => sizeOf v) +
    (match oldNode with | none => 0 | some v => sizeOf v)
decreasing_by
  all_goals simp <;> omega

/-- The child loop of `update`: `for (i = 0; i < newLength || i < oldLength;
i++) update(parent.childNodes[index], newChildren[i], oldChildren[i], i)`,
written as simultaneous recursion over the two child lists; an index beyond a
list's length reads `undefined`.  The parent is the live child being
reconciled, re-read after each in-place mutation; an exception stops the
loop. -/
def updateLoop (parent : Option LiveNode) (ncs ocs : List VNode) (i : Nat) : RRes :=
  match ncs, ocs with
  | [], [] => ⟨parent, [], none⟩
  | n :: ns, o :: os =>
    let r := update parent (some n) (some o) i
    match r.err with
    | some e => ⟨r.node, r.ops, some e⟩
    | none =>
      let r2 := updateLoop r.node ns os (i + 1)
      ⟨r2.node, r.ops ++ r2.ops, r2.err⟩
  | n :: ns, [] =>
    let r := update parent (some n) none i
    match r.err with
    | some e => ⟨r.node, r.ops, some e⟩
    | none =>
      let r2 := updateLoop r.node ns [] (i + 1)
      ⟨r2.node, r.ops ++ r2.ops, r2.err⟩
  | [], o :: os =>
    let r := update parent none (some o) i
    match r.err with
    | some e => ⟨r.node, r.ops, some e⟩
    | none =>
      let r2 := updateLoop r.node [] os (i + 1)
      ⟨r2.node, r.ops ++ r2.ops, r2.err⟩
termination_by sizeOf ncs + sizeOf ocs
decreasing_by
  all_goals simp <;> omega

end

/-- The reconcile entry point as exported: calling `update` without an index
argument, which JavaScript defaults to 0. -/
def updateTop (parent : Option LiveNode) (newNode oldNode : Option VNode) : RRes :=
  update parent newNode oldNode 0

mutual

/-- Whether no text node of the tree is the empty string, so that every node
of the tree is truthy. -/
def noEmptyText : VNode → Bool
  | .text s => !(s == "")
  | .elem _ _ cs => noEmptyTextList cs
termination_by v => sizeOf v

/-- List form of `noEmptyText`. -/
def noEmptyTextList : List VNode → Bool
  | [] => true
  | c :: cs => noEmptyText c && noEmptyTextList cs
termination_by cs => sizeOf cs

end

/-- Iterated removal at successive indices of a shrinking list: the effect on
a live child list of `j` `removeChild` calls issued at indices `i`,
`i + 1`, ... while the list loses one element per call. -/
def chopKids : List LiveNode → Nat → Nat → List LiveNode
  | ks, _, 0 => ks
  | ks, i, j + 1 => chopKids (ks.eraseIdx i) (i + 1) j

/-!
The reference model.  To state that reconciliation never mutates a VNode, the
virtual nodes are placed in an explicit mutable object store: a cell holds a
text or element object, and children are references (store indices) instead
of inline values, as JavaScript objects refer to each other on the heap.  The
engine functions are mirrored over this store, threading it through every
call so that a mutation of a virtual node would have to show up as a changed
store; recursion is bounded by explicit fuel because an arbitrary store may
contain reference cycles (which would also make the JavaScript engine loop).
The property helpers `updateProps`, `updateRemove` and `updateElemVsText` are
shared with the main model: they only ever receive property values already
read out of a cell, and never touch a virtual node.
-/

/-- A virtual-node object in the store: the text variant or the element
variant with child references. -/
inductive VCell where
  | ctext (s : String)
  | celem (tag : String) (props : List (String × Value)) (children : List Nat)
deriving DecidableEq, Repr

/-- The object store holding every virtual node, indexed by reference. -/
abbrev VStore := List VCell

/-- Errors of the reference model: a JavaScript exception, or fuel
exhaustion (only reachable on stores deeper than the fuel). -/
inductive SErr where
  | jsErr (e : JSError)
  | noFuel
deriving DecidableEq, Repr

/-- Result of a reference-model engine function: the mutated live node, the
store as left behind, the document operations, and the error, if any. -/
structure SRes where
  node : Option LiveNode
  vst : VStore
  ops : List Op
  err : Option SErr

/-- Result of materializing a list of child references. -/
structure SLRes where
  nodes : List LiveNode
  vst : VStore
  ops : List Op
  err : Option SErr

/-- Truthiness of a maybe-reference, reading the store; a dangling reference
cannot arise from a real object graph and is treated as undefined. -/
def truthyS (vst : VStore) : Option Nat → Bool
  | none => false
  | some r =>
    match vst[r]? with
    | some (.ctext s) => !(s == "")
    | some (.celem _ _ _) => true
    | none => false

/-- `changed` over store references, reading both cells; the dangling cases
are unreachable behind the truthiness guards of `updateS`. -/
def changedS (vst : VStore) (r1 r2 : Nat) : Bool :=
  match vst[r1]?, vst[r2]? with
  | some (.ctext a), some (.ctext b) => !(a == b)
  | some (.ctext _), some (.celem _ _ _) => true
  | some (.celem _ _ _), some (.ctext _) => true
  | some (.celem t1 _ _), some (.celem t2 _ _) => !(t1 == t2)
  | _, _ => false

mutual

/-- `createElement` over the store: read the cell for the reference and
materialize it, recursing through the child references. -/
def createElementS : Nat → VStore → Option Nat → SRes
  | 0, vst, _ => ⟨none, vst, [], some .noFuel⟩
  | _ + 1, vst, none => ⟨none, vst, [], some (.jsErr .typeError)⟩
  | fuel + 1, vst, some r =>
    match vst[r]? with
    | none => ⟨none, vst, [], some (.jsErr .typeError)⟩
    | some (.ctext s) => ⟨some (.ltext s), vst, [], none⟩
    | some (.celem t props cs) =>
      let r1 := setProps (some (.lelem t [] [] [])) props
      match r1.err with
      | some e => ⟨r1.node, vst, r1.ops, some (.jsErr e)⟩
      | none =>
        let r2 := addEventListeners r1.node props
        match r2.err with
        | some e => ⟨r2.node, vst, r1.ops ++ r2.ops, some (.jsErr e)⟩
        | none =>
          let rc := createListS fuel vst cs
          match rc.err with
          | some e => ⟨r2.node, rc.vst, r1.ops ++ r2.ops ++ rc.ops, some e⟩
          | none =>
            let ra := appendAll r2.node rc.nodes
            ⟨ra.node, rc.vst, r1.ops ++ r2.ops ++ rc.ops ++ ra.ops, ra.err.map .jsErr⟩
termination_by fuel _ _ => (fuel, 0)

/-- Child materialization over the store, in order, threading the store. -/
def createListS : Nat → VStore → List Nat → SLRes
  | _, vst, [] => ⟨[], vst, [], none⟩
  | fuel, vst, c :: cs =>
    let r := createElementS fuel vst (some c)
    match r.err with
    | some e => ⟨[], r.vst, r.ops, some e⟩
    | none =>
      match r.node with
      | some n =>
        let rs := createListS fuel r.vst cs
        match rs.err with
        | some e => ⟨[], rs.vst, r.ops ++ rs.ops, some e⟩
        | none => ⟨n :: rs.nodes, rs.vst, r.ops ++ rs.ops, none⟩
      | none => ⟨[], r.vst, r.ops, some (.jsErr .typeError)⟩
termination_by fuel _ cs => (fuel, cs.length + 1)

end

/-- Branch 1 of `updateS`: append a fresh materialization of the referenced
node, mirroring `updateAppend`. -/
def updateAppendS (fuel : Nat) (vst : VStore) (parent : Option LiveNode)
    (newRef : Option Nat) : SRes :=
  match parent with
  | none => ⟨none, vst, [], some (.jsErr .typeError)⟩
  | some (.ltext s) =>
    let rc := createElementS fuel vst newRef
    match rc.err with
    | some e => ⟨some (.ltext s), rc.vst, rc.ops, some e⟩
    | none => ⟨some (.ltext s), rc.vst, rc.ops, some (.jsErr .domError)⟩
  | some (.lelem t a l cs) =>
    let rc := createElementS fuel vst newRef
    match rc.err with
    | some e => ⟨some (.lelem t a l cs), rc.vst, rc.ops, some e⟩
    | none =>
      match rc.node with
      | some child => ⟨some (.lelem t a l (cs ++ [child])), rc.vst, rc.ops ++ [.appendChild], none⟩
      | none => ⟨some (.lelem t a l cs), rc.vst, rc.ops, some (.jsErr .typeError)⟩

/-- Branch 3 of `updateS`: replace the live child at the index with a fresh
materialization of the referenced node, mirroring `updateReplace`. -/
def updateReplaceS (fuel : Nat) (vst : VStore) (parent : Option LiveNode)
    (nr : Nat) (index : Nat) : SRes :=
  match parent with
  | none => ⟨none, vst, [], some (.jsErr .typeError)⟩
  | some (.ltext s) =>
    let rc := createElementS fuel vst (some nr)
    match rc.err with
    | some e => ⟨some (.ltext s), rc.vst, rc.ops, some e⟩
    | none => ⟨some (.ltext s), rc.vst, rc.ops, some (.jsErr .typeError)⟩
  | some (.lelem t a l cs) =>
    let rc := createElementS fuel vst (some nr)
    match rc.err with
    | some e => ⟨some (.lelem t a l cs), rc.vst, rc.ops, some e⟩
    | none =>
      match rc.node, cs[index]? with
      | some child, some _ =>
        ⟨some (.lelem t a l (cs.set index child)), rc.vst, rc.ops ++ [.replaceChild index], none⟩
      | _, _ => ⟨some (.lelem t a l cs), rc.vst, rc.ops, some (.jsErr .typeError)⟩

mutual

/-- `update` over the store: the same four branches as `update`, with every
virtual-node access going through the store and the store threaded through
every call. -/
def updateS (fuel : Nat) (vst : VStore) (parent : Option LiveNode)
    (newRef oldRef : Option Nat) (index : Nat) : SRes :=
  match fuel with
  | 0 => ⟨parent, vst, [], some .noFuel⟩
  | fuel + 1 =>
    if truthyS vst oldRef = false then updateAppendS fuel vst parent newRef
    else if truthyS vst newRef = false then
      let r := updateRemove parent index
      ⟨r.node, vst, r.ops, r.err.map .jsErr⟩
    else
      match newRef, oldRef with
      | some nr, some orr =>
        if changedS vst nr orr then updateReplaceS fuel vst parent nr index
        else
          match vst[nr]? with
          | some (.ctext _) => ⟨parent, vst, [], none⟩
          | some (.celem t np ncs) =>
            if t == "" then ⟨parent, vst, [], none⟩
            else
              match parent with
              | none => ⟨none, vst, [], some (.jsErr .typeError)⟩
              | some p =>
                match vst[orr]? with
                | some (.celem _ op ocs) =>
                  let r1 := updateProps (childAt (some p) index) np op
                  match r1.err with
                  | some e => ⟨setChild (some p) index r1.node, vst, r1.ops, some (.jsErr e)⟩
                  | none =>
                    let rl := updateLoopS fuel vst r1.node ncs ocs 0
                    ⟨setChild (some p) index rl.node, rl.vst, r1.ops ++ rl.ops, rl.err⟩
                | some (.ctext _) =>
                  let r := updateElemVsText p np index
                  ⟨r.node, vst, r.ops, r.err.map .jsErr⟩
                | none => ⟨some p, vst, [], some (.jsErr .typeError)⟩
          | none => ⟨parent, vst, [], some (.jsErr .typeError)⟩
      | _, _ => ⟨parent, vst, [], some (.jsErr .typeError)⟩
termination_by (fuel, 0)

/-- The child loop of `updateS` over lists of child references. -/
def updateLoopS (fuel : Nat) (vst : VStore) (parent : Option LiveNode)
    (ncs ocs : List Nat) (i : Nat) : SRes :=
  match ncs, ocs with
  | [], [] => ⟨parent, vst, [], none⟩
  | n :: ns, o :: os =>
    let r := updateS fuel vst parent (some n) (some o) i
    match r.err with
    | some e => ⟨r.node, r.vst, r.ops, some e⟩
    | none =>
      let r2 := updateLoopS fuel r.vst r.node ns os (i + 1)
      ⟨r2.node, r2.vst, r.ops ++ r2.ops, r2.err⟩
  | n :: ns, [] =>
    let r := updateS fuel vst parent (some n) none i
    match r.err with
    | some e => ⟨r.node, r.vst, r.ops, some e⟩
    | none =>
      let r2 := updateLoopS fuel r.vst r.node ns [] (i + 1)
      ⟨r2.node, r2.vst, r.ops ++ r2.ops, r2.err⟩
  | [], o :: os =>
    let r := updateS fuel vst parent none (some o) i
    match r.err with
    | some e => ⟨r.node, r.vst, r.ops, some e⟩
    | none =>
      let r2 := updateLoopS fuel r.vst r.node [] os (i + 1)
      ⟨r2.node, r2.vst, r.ops ++ r2.ops, r2.err⟩
termination_by (fuel, ncs.length + ocs.length + 1)

end

end Reflex

/-!
Theorems.  Each claim of the specification gets exactly one theorem below
(plus a witness or counterexample where required); shared facts are stated
first as helper lemmas.
-/

namespace Reflex

/-- Every VNode has positive size. -/
theorem vnode_sizeOf_pos (v : VNode) : 1 ≤ sizeOf v := by
  cases v <;> simp_arith

/-- Every VNode list has positive size. -/
theorem vlist_sizeOf_pos (cs : List VNode) : 1 ≤ sizeOf cs := by
  cases cs <;> simp_arith

/-- The property-diff loop never performs an operation and never changes its
target: the very first `updateProp` call raises a ReferenceError, so a
non-empty key list aborts at its head and an empty one does nothing. -/
theorem updatePropsGo_eq (target : Option LiveNode) (np op : List (String × Value)) :
    ∀ ks : List String, updatePropsGo target np op ks =
      ⟨target, [], if ks.isEmpty then none else some .referenceError⟩ := by
  intro ks
  cases ks <;> simp [updatePropsGo, updateProp]

/-- Closed form of `updateProps`: no operations, target unchanged, and a
ReferenceError exactly when the merged key set is non-empty. -/
theorem updateProps_eq (target : Option LiveNode) (np op : List (String × Value)) :
    updateProps target np op =
      ⟨target, [], if (jsKeys (objAssign np op)).isEmpty then none else some .referenceError⟩ := by
  simp [updateProps, updatePropsGo_eq]

/-- An unchanged non-empty text pair is a complete no-op of the reconciler. -/
theorem update_text_same (parent : Option LiveNode) (s : String) (i : Nat)
    (hs : (s == "") = false) :
    update parent (some (.text s)) (some (.text s)) i = ⟨parent, [], none⟩ := by
  rw [update.eq_def]
  simp [truthy, changed, hs]

/-- Reconciling a tree against itself performs no document operation, at any
size bound: the main induction behind the idempotence claim, stated jointly
for `update` and `updateLoop`. -/
theorem update_same_ops_nil_aux : ∀ n : Nat,
    (∀ (T : VNode) (parent : Option LiveNode) (idx : Nat), sizeOf T ≤ n →
      noEmptyText T = true → (update parent (some T) (some T) idx).ops = []) ∧
    (∀ (cs : List VNode) (parent : Option LiveNode) (i : Nat), sizeOf cs ≤ n →
      noEmptyTextList cs = true → (updateLoop parent cs cs i).ops = []) := by
  intro n
  induction n with
  | zero =>
    constructor
    · intro T _ _ hs _
      exact absurd hs (by have := vnode_sizeOf_pos T; omega)
    · intro cs _ _ hs _
      exact absurd hs (by have := vlist_sizeOf_pos cs; omega)
  | succ n ih =>
    constructor
    · intro T parent idx hs hne
      match T with
      | .text s =>
        have hs' : (s == "") = false := by
          have := hne
          simp [noEmptyText] at this
          simp [this]
        rw [update_text_same parent s idx hs']
      | .elem t pr cs =>
        have hcs : noEmptyTextList cs = true := by
          have := hne; simpa [noEmptyText] using this
        have hszcs : sizeOf cs ≤ n := by
          have h1 := hs; simp_arith at h1; omega
        rw [update.eq_def]
        simp only [truthy, changed]
        simp only [beq_self_eq_true, Bool.not_true, if_neg, Bool.true_eq_false,
          not_false_eq_true, if_false]
        by_cases ht : (t == "") = true
        · simp [ht]
        · simp only [ht, if_false, Bool.false_eq_true]
          match parent with
          | none => simp
          | some p =>
            simp only [updateProps_eq]
            by_cases hkeys : (jsKeys (objAssign pr pr)).isEmpty = true
            · simp [hkeys, ih.2 cs _ 0 hszcs hcs]
            · simp [hkeys]
    · intro cs parent i hs hne
      match cs with
      | [] => simp [updateLoop]
      | c :: cs' =>
        have h1 : noEmptyText c = true ∧ noEmptyTextList cs' = true := by
          have := hne; simpa [noEmptyTextList, Bool.and_eq_true] using this
        have hc : sizeOf c ≤ n := by have h2 := hs; simp_arith at h2; omega
        have hcs' : sizeOf cs' ≤ n := by have h2 := hs; simp_arith at h2; omega
        rw [updateLoop.eq_def]
        simp only []
        cases hr : (update parent (some c) (some c) i).err with
        | some e => simp [hr, ih.1 c parent i hc h1.1]
        | none =>
          simp [hr, ih.1 c parent i hc h1.1,
            ih.2 cs' ((update parent (some c) (some c) i).node) (i + 1) hcs' h1.2]

end Reflex

namespace Reflex

/-- Claim C1.  The claimed behaviour of `updateProp` (remove the property on
a falsy new value, otherwise set it when the old value is absent or strictly
different) never happens: at the claim's own example input — new value the
empty string, old value the string `a` — the call raises a ReferenceError
(the body reads the unbound identifier `newVal`) and performs no attribute
operation at all, so the title attribute is neither removed nor set. -/
theorem claim1_updateProp_always_reference_error :
    updateProp (some (.lelem "div" [("title", .str "a")] [] [])) "title"
        (some (.str "")) (some (.str "a")) =
      ⟨some (.lelem "div" [("title", .str "a")] [] []), [], some .referenceError⟩ := rfl

/-- Claim C2, counterexample.  Reconciling the well-formed tree
div with a single empty-string text child against itself, on a parent whose
child was rendered from that very tree, performs an `appendChild` operation:
the empty-string text child is falsy, so the child loop takes the append
branch and duplicates the text node instead of leaving the tree alone. -/
theorem claim2_empty_text_appends :
    (update (some (.lelem "body" [] [] [.lelem "div" [] [] [.ltext ""]]))
        (some (.elem "div" [] [.text ""])) (some (.elem "div" [] [.text ""])) 0).ops =
      [.appendChild] ∧
    (update (some (.lelem "body" [] [] [.lelem "div" [] [] [.ltext ""]]))
        (some (.elem "div" [] [.text ""])) (some (.elem "div" [] [.text ""])) 0).ops ≠ [] := by
  constructor
  · simp +decide [update, updateLoop, updateAppend, truthy, changed, createElementO,
      createElement, updateProps_eq, jsKeys, objAssign, childAt, setChild]
  · simp +decide [update, updateLoop, updateAppend, truthy, changed, createElementO,
      createElement, updateProps_eq, jsKeys, objAssign, childAt, setChild]

/-- Claim C2, amended.  Reconciling a well-formed tree against itself (the
same tree as both new and old) performs zero attribute set/remove operations
and zero child append/remove/replace operations, for every tree none of
whose text nodes is the empty string — the amendment excludes empty-string
text nodes, which are falsy and take the append branch instead of the no-op
path.  This holds for every live parent and position. -/
theorem claim2_idempotent_no_ops (parent : Option LiveNode) (idx : Nat) (T : VNode)
    (hT : noEmptyText T = true) :
    (update parent (some T) (some T) idx).ops = [] :=
  (update_same_ops_nil_aux (sizeOf T)).1 T parent idx le_rfl hT

/-- Witness for the amended claim C2 at a concrete tree with a property, an
event handler and a text child. -/
theorem claim2_idempotent_no_ops_witness :
    noEmptyText (.elem "div" [("id", .str "a")] [.text "x"]) = true ∧
    (update (some (.lelem "body" [] [] [.lelem "div" [("id", .str "a")] [] [.ltext "x"]]))
        (some (.elem "div" [("id", .str "a")] [.text "x"]))
        (some (.elem "div" [("id", .str "a")] [.text "x"])) 0).ops = [] :=
  ⟨by simp [noEmptyText, noEmptyTextList],
    claim2_idempotent_no_ops _ 0 _ (by simp [noEmptyText, noEmptyTextList])⟩

/-- Claim C3.  Reconciling `(parent, T, undefined)` against an empty live
parent appends exactly one live subtree, and that subtree is the very node
the materializer produces for `T` (hence identical in tag names, attribute
values, text contents and child order), with exactly the materializer's
operations followed by the single append. -/
theorem claim3_initial_render_equals_materialization
    (T : VNode) (g : String) (a l : List (String × Value)) (nd : LiveNode) (ops : List Op)
    (hc : createElement T = ⟨some nd, ops, none⟩) :
    update (some (.lelem g a l [])) (some T) none 0 =
      ⟨some (.lelem g a l [nd]), ops ++ [.appendChild], none⟩ := by
  rw [update.eq_def]
  simp [truthy, updateAppend, createElementO, hc]

/-- Witness for claim C3 at the repository's own example tree. -/
theorem claim3_initial_render_equals_materialization_witness :
    update (some (.lelem "body" [] [] []))
        (some (.elem "h2" [] [.text ("Hello World!")])) none 0 =
      ⟨some (.lelem "body" [] [] [.lelem "h2" [] [] [.ltext ("Hello World!")]]),
        [.appendChild, .appendChild], none⟩ :=
  claim3_initial_render_equals_materialization
    (.elem "h2" [] [.text ("Hello World!")]) "body" [] []
    (.lelem "h2" [] [] [.ltext ("Hello World!")]) [.appendChild]
    (by simp [createElement, createList, setProps, setPropsGo, addEventListeners,
      addEventListenersGo, appendAll, jsKeys])

/-- Claim C4.  For two present well-formed nodes the change predicate holds
exactly when one of them is a string and the other is not, or both are
strings with different contents, or both are elements with different tag
names; in particular equal strings, and same-tag elements with different
props or children, are not changed. -/
theorem claim4_changed_characterization (n o : VNode) :
    changed n o = true ↔
      ((∃ s, n = VNode.text s) ∧ (∀ s, o ≠ VNode.text s)) ∨
      ((∀ s, n ≠ VNode.text s) ∧ (∃ s, o = VNode.text s)) ∨
      (∃ a b, n = VNode.text a ∧ o = VNode.text b ∧ a ≠ b) ∨
      (∃ t1 p1 c1 t2 p2 c2, n = VNode.elem t1 p1 c1 ∧ o = VNode.elem t2 p2 c2 ∧ t1 ≠ t2) := by
  cases n <;> cases o <;> simp [changed]

/-- Claim C5.  The claimed contract of `updateProps` — one `diffProperty`
call per key of the union of the key sets — is broken by the code: with two
keys in the new properties, the call for the first key raises a
ReferenceError, the `forEach` aborts, and `updateProp` is never invoked for
the second key; the whole call returns having performed nothing. -/
theorem claim5_updateProps_aborts_on_first_key :
    updateProps (some (.lelem "div" [] [] [])) [("a", .str "1"), ("b", .str "2")] [] =
      ⟨some (.lelem "div" [] [] []), [], some .referenceError⟩ := rfl

end Reflex

namespace Reflex

/-- Claim C6.  Event subscription happens only during materialization: the
materializer binds the old handler under the extracted event name; the
subsequent in-place reconciliation to a node with a different handler leaves
the live tree exactly as it was (the old handler still bound) and performs no
operation at all — in particular no subscription of the new handler — for
every tag name and any two handlers. -/
theorem claim6_no_event_resubscription (tag ptag : String) (f1 f2 : Nat) :
    createElement (.elem tag [("onClick", .fn f1)] []) =
      ⟨some (.lelem tag [] [("click", .fn f1)] []), [.addListener "click" (.fn f1)], none⟩ ∧
    (update (some (.lelem ptag [] [] [.lelem tag [] [("click", .fn f1)] []]))
        (some (.elem tag [("onClick", .fn f2)] []))
        (some (.elem tag [("onClick", .fn f1)] [])) 0).node =
      some (.lelem ptag [] [] [.lelem tag [] [("click", .fn f1)] []]) ∧
    (update (some (.lelem ptag [] [] [.lelem tag [] [("click", .fn f1)] []]))
        (some (.elem tag [("onClick", .fn f2)] []))
        (some (.elem tag [("onClick", .fn f1)] [])) 0).ops = [] := by
  refine ⟨?_, ?_⟩
  · simp +decide [createElement, createList, setProps, setPropsGo, setProp, isCustomProp,
      isEventProp, addEventListeners, addEventListenersGo, extractEventName, appendAll,
      jsKeys, List.lookup]
  · by_cases htag : (tag == "") = true
    · have hupd : update (some (.lelem ptag [] [] [.lelem tag [] [("click", .fn f1)] []]))
          (some (.elem tag [("onClick", .fn f2)] []))
          (some (.elem tag [("onClick", .fn f1)] [])) 0 =
          ⟨some (.lelem ptag [] [] [.lelem tag [] [("click", .fn f1)] []]), [], none⟩ := by
        rw [update.eq_def]
        simp [truthy, changed, htag]
      rw [hupd]
      constructor <;> rfl
    · have hupd : update (some (.lelem ptag [] [] [.lelem tag [] [("click", .fn f1)] []]))
          (some (.elem tag [("onClick", .fn f2)] []))
          (some (.elem tag [("onClick", .fn f1)] [])) 0 =
          ⟨some (.lelem ptag [] [] [.lelem tag [] [("click", .fn f1)] []]), [],
            some .referenceError⟩ := by
        rw [update.eq_def]
        simp +decide [truthy, changed, htag, updateProps_eq, childAt, setChild,
          jsKeys, objAssign, List.lookup]
      rw [hupd]
      constructor <;> rfl

/-- Claim C8, counterexample.  When the old node at the position is itself
the empty string — present, but falsy — and the new node is also the empty
string, the reconciler does not take the removal branch: `!oldNode` is true,
so it appends a fresh empty text node and the live child at the index stays
in place. -/
theorem claim8_empty_old_text_appends_instead :
    update (some (.lelem "div" [] [] [.ltext ""])) (some (.text "")) (some (.text "")) 0 =
      ⟨some (.lelem "div" [] [] [.ltext "", .ltext ""]), [.appendChild], none⟩ ∧
    (update (some (.lelem "div" [] [] [.ltext ""])) (some (.text "")) (some (.text "")) 0).ops ≠
      [.removeChild 0] := by
  constructor <;>
    simp +decide [update, truthy, updateAppend, createElementO, createElement]

/-- Claim C8, amended.  When the old node at the position is present and
truthy (the amendment: the old node must not itself be the empty string) and
the new node is the empty string — a falsy text node — the reconciler takes
the removal branch and removes the live child at that index, for any element
parent with a child at that index. -/
theorem claim8_falsy_new_removes (tag : String) (a l : List (String × Value))
    (kids : List LiveNode) (idx : Nat) (oldN : VNode)
    (hold : truthy (some oldN) = true) (hidx : idx < kids.length) :
    update (some (.lelem tag a l kids)) (some (.text "")) (some oldN) idx =
      ⟨some (.lelem tag a l (kids.eraseIdx idx)), [.removeChild idx], none⟩ := by
  rw [update.eq_def, hold]
  simp [truthy, updateRemove, List.getElem?_eq_getElem hidx]

/-- Witness for the amended claim C8. -/
theorem claim8_falsy_new_removes_witness :
    truthy (some (.text "b")) = true ∧ (1 : Nat) < 2 ∧
    update (some (.lelem "ul" [] [] [.ltext "a", .ltext "b"])) (some (.text ""))
        (some (.text "b")) 1 =
      ⟨some (.lelem "ul" [] [] [.ltext "a"]), [.removeChild 1], none⟩ :=
  ⟨by decide, by decide,
    claim8_falsy_new_removes "ul" [] [] [.ltext "a", .ltext "b"] 1 (.text "b")
      (by decide) (by decide)⟩

/-- Claim C9.  The exported entry point passes no index, which defaults to 0:
a removal (new node absent) removes the parent's first live child, and a
replacement (both present and changed) replaces the first live child with the
fresh materialization, however many further children the parent has — the
rest of the child list is untouched in both cases. -/
theorem claim9_default_index_zero (tag : String) (a l : List (String × Value))
    (c0 : LiveNode) (rest : List LiveNode) :
    (∀ oldN : VNode, truthy (some oldN) = true →
      updateTop (some (.lelem tag a l (c0 :: rest))) none (some oldN) =
        ⟨some (.lelem tag a l rest), [.removeChild 0], none⟩) ∧
    (∀ (newN oldN : VNode) (nd : LiveNode) (ops : List Op),
      truthy (some newN) = true → truthy (some oldN) = true → changed newN oldN = true →
      createElement newN = ⟨some nd, ops, none⟩ →
      updateTop (some (.lelem tag a l (c0 :: rest))) (some newN) (some oldN) =
        ⟨some (.lelem tag a l (nd :: rest)), ops ++ [.replaceChild 0], none⟩) := by
  constructor
  · intro oldN hold
    unfold updateTop
    rw [update.eq_def, hold]
    simp [truthy, updateRemove]
  · intro newN oldN nd ops hnew hold hch hc
    unfold updateTop
    rw [update.eq_def, hold, hnew]
    simp [hch, updateReplace, hc]

/-- Witness for claim C9, exercising both the removal and the replacement
statement on a parent with a second child. -/
theorem claim9_default_index_zero_witness :
    updateTop (some (.lelem "div" [] [] [.ltext "x", .ltext "y"])) none (some (.text "x")) =
      ⟨some (.lelem "div" [] [] [.ltext "y"]), [.removeChild 0], none⟩ ∧
    updateTop (some (.lelem "div" [] [] [.ltext "x", .ltext "y"])) (some (.elem "span" [] []))
        (some (.text "x")) =
      ⟨some (.lelem "div" [] [] [.lelem "span" [] [] [], .ltext "y"]),
        [.replaceChild 0], none⟩ :=
  ⟨(claim9_default_index_zero "div" [] [] (.ltext "x") [.ltext "y"]).1 (.text "x") (by decide),
    (claim9_default_index_zero "div" [] [] (.ltext "x") [.ltext "y"]).2 (.elem "span" [] [])
      (.text "x") (.lelem "span" [] [] []) [] (by decide) (by decide) (by decide)
      (by simp [createElement, createList, setProps, setPropsGo, addEventListeners,
        addEventListenersGo, appendAll, jsKeys])⟩

end Reflex

namespace Reflex

/-- The removal phase of the child loop: every new child is exhausted, every
remaining old child is truthy, and the loop keeps issuing `removeChild` at
the unadjusted indices `i`, `i + 1`, ... while the live child list shrinks by
one per removal.  Exactly `min es.length ((ks.length - i + 1) / 2)` removals
succeed; if old children remain beyond that, the next `removeChild` receives
`undefined` (the index walked past the shrunk list) and raises a TypeError. -/
theorem updateLoop_removal_phase (es : List VNode) :
    ∀ (t : String) (la ll : List (String × Value)) (ks : List LiveNode) (i : Nat),
      (∀ e ∈ es, truthy (some e) = true) →
      updateLoop (some (.lelem t la ll ks)) [] es i =
        ⟨some (.lelem t la ll (chopKids ks i (min es.length ((ks.length - i + 1) / 2)))),
          (List.range' i (min es.length ((ks.length - i + 1) / 2))).map Op.removeChild,
          if min es.length ((ks.length - i + 1) / 2) < es.length then some .typeError
          else none⟩ := by
  induction es with
  | nil =>
    intro t la ll ks i _
    simp [updateLoop, chopKids]
  | cons e es' ih =>
    intro t la ll ks i hes
    have he : truthy (some e) = true := hes e (by simp)
    have hes' : ∀ x ∈ es', truthy (some x) = true := fun x hx => hes x (by simp [hx])
    have hupd : update (some (.lelem t la ll ks)) none (some e) i =
        updateRemove (some (.lelem t la ll ks)) i := by
      rw [update.eq_def, he]
      simp [truthy]
    rw [updateLoop.eq_def]
    simp only [hupd]
    by_cases hi : i < ks.length
    · have hj : min (e :: es').length ((ks.length - i + 1) / 2) =
          min es'.length (((ks.eraseIdx i).length - (i + 1) + 1) / 2) + 1 := by
        rw [List.length_eraseIdx]
        simp only [List.length_cons, if_pos hi]
        omega
      rw [updateRemove]
      simp only [List.getElem?_eq_getElem hi]
      rw [ih t la ll (ks.eraseIdx i) (i + 1) hes']
      rw [hj]
      simp [chopKids, List.range'_succ, Nat.succ_lt_succ_iff]
    · have hz : min (e :: es').length ((ks.length - i + 1) / 2) = 0 := by omega
      rw [updateRemove]
      simp only [List.getElem?_eq_none (by omega : ks.length ≤ i)]
      rw [hz]
      simp [chopKids]

/-- The unchanged prefix of the child loop: while both child lists hold the
same non-empty string at the position, the step is a complete no-op and the
loop just advances the index past the prefix. -/
theorem updateLoop_text_prefix (pre : List String) :
    ∀ (parent : Option LiveNode) (extra : List VNode) (i : Nat),
      (∀ s ∈ pre, (s == "") = false) →
      updateLoop parent (pre.map VNode.text) (pre.map VNode.text ++ extra) i =
        updateLoop parent [] extra (i + pre.length) := by
  induction pre with
  | nil => intro parent extra i _; simp
  | cons s pre' ih =>
    intro parent extra i hpre
    have hs : (s == "") = false := hpre s (by simp)
    have hpre' : ∀ x ∈ pre', (x == "") = false := fun x hx => hpre x (by simp [hx])
    rw [List.map_cons, List.cons_append, updateLoop.eq_def]
    simp only [update_text_same parent s i hs]
    rw [ih parent extra (i + 1) hpre']
    have hidx : i + 1 + pre'.length = i + (pre'.length + 1) := by omega
    simp [hidx]

end Reflex

namespace Reflex

/-- Claim C10.  During child reconciliation each removal targets the
unadjusted VNode-list index: when the old children extend the new children
(non-empty-string texts) by `extra` (all truthy) with at least two extra
children, and the live element was rendered with one live child per old
child, the issued removals are `removeChild` at the consecutive indices
`pre.length`, `pre.length + 1`, ... with no adjustment for the shrinking
list.  Consequently only `(extra.length + 1) / 2` removals happen — strictly
fewer than the number of trailing old children, so the live children
actually removed are not the trailing ones (every other trailing child
survives), and the pass aborts with a TypeError when the unadjusted index
walks past the end. -/
theorem claim10_unadjusted_removals
    (pt t : String) (pa pl la ll : List (String × Value))
    (pre : List String) (extra : List VNode) (liveKids : List LiveNode)
    (hpre : ∀ s ∈ pre, (s == "") = false)
    (hextra : ∀ e ∈ extra, truthy (some e) = true)
    (hk : 2 ≤ extra.length) (ht : (t == "") = false)
    (hlen : liveKids.length = pre.length + extra.length) :
    (update (some (.lelem pt pa pl [.lelem t la ll liveKids]))
        (some (.elem t [] (pre.map VNode.text)))
        (some (.elem t [] (pre.map VNode.text ++ extra))) 0).ops =
      (List.range' pre.length ((extra.length + 1) / 2)).map Op.removeChild ∧
    (update (some (.lelem pt pa pl [.lelem t la ll liveKids]))
        (some (.elem t [] (pre.map VNode.text)))
        (some (.elem t [] (pre.map VNode.text ++ extra))) 0).ops.length < extra.length ∧
    (update (some (.lelem pt pa pl [.lelem t la ll liveKids]))
        (some (.elem t [] (pre.map VNode.text)))
        (some (.elem t [] (pre.map VNode.text ++ extra))) 0).err = some .typeError := by
  have hj : min extra.length ((liveKids.length - pre.length + 1) / 2) = (extra.length + 1) / 2 := by
    omega
  have hjk : (extra.length + 1) / 2 < extra.length := by omega
  have hloop : List.eraseDups.loop ([] : List String) [] = [] := rfl
  have hpfx := updateLoop_text_prefix pre (some (.lelem t la ll liveKids)) extra 0 hpre
  have hrem := updateLoop_removal_phase extra t la ll liveKids pre.length hextra
  have hupd : update (some (.lelem pt pa pl [.lelem t la ll liveKids]))
      (some (.elem t [] (pre.map VNode.text)))
      (some (.elem t [] (pre.map VNode.text ++ extra))) 0 =
      ⟨setChild (some (.lelem pt pa pl [.lelem t la ll liveKids])) 0
          (some (.lelem t la ll (chopKids liveKids pre.length ((extra.length + 1) / 2)))),
        (List.range' pre.length ((extra.length + 1) / 2)).map Op.removeChild,
        some .typeError⟩ := by
    rw [update.eq_def]
    simp [truthy, changed, ht, updateProps_eq, jsKeys, objAssign, childAt, hpfx, hrem,
      hj, hjk, List.eraseDups, hloop]
  refine ⟨by rw [hupd], ?_, by rw [hupd]⟩
  rw [hupd]
  simpa [List.length_map, List.length_range'] using hjk

/-- Witness for claim C10: one unchanged child, two trailing old children;
a single removal happens, at unadjusted index 1, and the pass ends in a
TypeError — the second trailing child is never removed. -/
theorem claim10_unadjusted_removals_witness :
    (update (some (.lelem "body" [] [] [.lelem "ul" [] [] [.ltext "a", .ltext "b", .ltext "c"]]))
        (some (.elem "ul" [] [.text "a"]))
        (some (.elem "ul" [] [.text "a", .text "b", .text "c"])) 0).ops =
      [Op.removeChild 1] ∧
    (update (some (.lelem "body" [] [] [.lelem "ul" [] [] [.ltext "a", .ltext "b", .ltext "c"]]))
        (some (.elem "ul" [] [.text "a"]))
        (some (.elem "ul" [] [.text "a", .text "b", .text "c"])) 0).ops.length < 2 ∧
    (update (some (.lelem "body" [] [] [.lelem "ul" [] [] [.ltext "a", .ltext "b", .ltext "c"]]))
        (some (.elem "ul" [] [.text "a"]))
        (some (.elem "ul" [] [.text "a", .text "b", .text "c"])) 0).err =
      some .typeError := by
  have h := claim10_unadjusted_removals "body" "ul" [] [] [] [] ["a"]
    [.text "b", .text "c"] [.ltext "a", .ltext "b", .ltext "c"]
    (by decide) (by decide) (by decide) (by decide) (by decide)
  simpa using h

end Reflex

namespace Reflex

/-- Materialization over the store reads it and never writes it, at every
fuel bound: joint statement for `createElementS` and `createListS`. -/
theorem createElementS_store : ∀ fuel : Nat,
    (∀ (vst : VStore) (r : Option Nat), (createElementS fuel vst r).vst = vst) ∧
    (∀ (vst : VStore) (rs : List Nat), (createListS fuel vst rs).vst = vst) := by
  intro fuel
  induction fuel with
  | zero =>
    refine ⟨fun vst r => by simp [createElementS], ?_⟩
    intro vst rs
    cases rs <;> simp [createListS, createElementS]
  | succ n ih =>
    obtain ⟨ihE, ihL⟩ := ih
    have hE : ∀ (vst : VStore) (r : Option Nat), (createElementS (n + 1) vst r).vst = vst := by
      intro vst r
      match r with
      | none => simp [createElementS]
      | some rr =>
        simp only [createElementS]
        cases hc : vst[rr]? with
        | none => simp
        | some cell =>
          cases cell with
          | ctext s => simp
          | celem t props cs =>
            simp only []
            repeat' split
            all_goals simp [ihL]
    refine ⟨hE, ?_⟩
    intro vst rs
    induction rs generalizing vst with
    | nil => simp [createListS]
    | cons c cs ihl =>
      simp only [createListS]
      repeat' split
      all_goals simp [hE, ihl]


/-- The append branch of `updateS` reads the store and never writes it. -/
theorem updateAppendS_store (fuel : Nat) (vst : VStore) (parent : Option LiveNode)
    (nr : Option Nat) : (updateAppendS fuel vst parent nr).vst = vst := by
  have hE := (createElementS_store fuel).1
  unfold updateAppendS
  repeat' split
  all_goals try simp [hE]
  all_goals repeat' split
  all_goals rfl

/-- The replace branch of `updateS` reads the store and never writes it. -/
theorem updateReplaceS_store (fuel : Nat) (vst : VStore) (parent : Option LiveNode)
    (nr : Nat) (index : Nat) : (updateReplaceS fuel vst parent nr index).vst = vst := by
  have hE := (createElementS_store fuel).1
  unfold updateReplaceS
  repeat' split
  all_goals try simp [hE]
  all_goals repeat' split
  all_goals rfl

/-- The reconciler over the store reads it and never writes it, at every
fuel bound: joint statement for `updateS` and `updateLoopS`. -/
theorem updateS_store_aux : ∀ fuel : Nat,
    (∀ (vst : VStore) (parent : Option LiveNode) (nr orr : Option Nat) (idx : Nat),
      (updateS fuel vst parent nr orr idx).vst = vst) ∧
    (∀ (vst : VStore) (parent : Option LiveNode) (ncs ocs : List Nat) (i : Nat),
      (updateLoopS fuel vst parent ncs ocs i).vst = vst) := by
  intro fuel
  induction fuel with
  | zero =>
    refine ⟨fun vst parent nr orr idx => by simp [updateS], ?_⟩
    intro vst parent ncs ocs i
    cases ncs <;> cases ocs <;> simp [updateLoopS, updateS]
  | succ n ih =>
    obtain ⟨ihU, ihL⟩ := ih
    have hU : ∀ (vst : VStore) (parent : Option LiveNode) (nr orr : Option Nat) (idx : Nat),
        (updateS (n + 1) vst parent nr orr idx).vst = vst := by
      intro vst parent nr orr idx
      rw [updateS.eq_def]
      repeat' split
      all_goals try simp_all [updateAppendS_store, updateReplaceS_store, ihL]
      all_goals repeat' split
      all_goals rfl
    refine ⟨hU, ?_⟩
    intro vst parent ncs ocs i
    induction ncs generalizing ocs vst parent i with
    | nil =>
      induction ocs generalizing vst parent i with
      | nil => simp [updateLoopS]
      | cons o os iho =>
        simp only [updateLoopS]
        repeat' split
        all_goals try simp [hU, iho]
        all_goals repeat' split
        all_goals rfl
    | cons nn ns ihn =>
      cases ocs with
      | nil =>
        simp only [updateLoopS]
        repeat' split
        all_goals try simp [hU, ihn]
        all_goals repeat' split
        all_goals rfl
      | cons o os =>
        simp only [updateLoopS]
        repeat' split
        all_goals try simp [hU, ihn]
        all_goals repeat' split
        all_goals rfl

/-- Claim C7.  A run of the reconciler leaves the virtual-node store exactly
as it found it: neither the new nor the old virtual tree — type, props,
children, or any nested descendant — is ever mutated; only the live parent
comes back changed.  Stated over the reference model for every fuel bound,
store, live parent, pair of node references and position. -/
theorem claim7_reconciler_never_mutates_vnodes
    (fuel : Nat) (vst : VStore) (parent : Option LiveNode)
    (newRef oldRef : Option Nat) (index : Nat) :
    (updateS fuel vst parent newRef oldRef index).vst = vst :=
  (updateS_store_aux fuel).1 vst parent newRef oldRef index

end Reflex

